import Mathlib

/-!
A verification development for the `solaredge` repository (Python).

The repository polls a SolarEdge monitoring HTTP API and writes the data to
InfluxDB.  The relevant code lives in `fetch-latest.py`, `fetch-history.py`
and `solaredgemonitor/__init__.py`.  This file gives a shallow embedding of
the pure logic of those scripts:

* Python exceptions are modelled by the `PyError` type; code that can raise
  is embedded as `Except PyError`-valued functions.
* `datetime` values appearing in record timestamps are modelled by the
  `DateTime` structure; absolute instants used in window arithmetic are
  modelled as integer seconds (`dateTimeToSec` converts, using the standard
  civil-calendar day-count; timezone conversions such as `astimezone` do not
  change the instant and are modelled as the identity).
* `timedelta` constants become integer second counts.
* Dictionaries coming from JSON are modelled as structures with `Option`
  fields (a `none` field models an absent key), except where the code
  indexes an unknown envelope, which is modelled by the small `Json` type
  with Python `__getitem__` semantics.
* each `float` reading is modelled as an `Int`; no claim depends on
  fractional values.
-/

/-- The Python exceptions that the embedded code can raise. -/
inductive PyError
  | keyError (key : String)
  | typeError (msg : String)
  | attributeError (msg : String)
  | valueError (msg : String)
deriving DecidableEq, Repr

/-- A calendar timestamp, as produced by
`datetime.strptime(s, "%Y-%m-%d %H:%M:%S")`. -/
structure DateTime where
  year : Nat
  month : Nat
  day : Nat
  hour : Nat
  minute : Nat
  second : Nat
deriving DecidableEq, Repr

/-- Leap-year test of the proleptic Gregorian calendar (as used by
Python's `datetime`). -/
def isLeap (y : Nat) : Bool :=
  y % 4 == 0 && (y % 100 != 0 || y % 400 == 0)

/-- Number of days in a month, used by `strptime` to validate the day
field the way Python's `datetime` constructor does. -/
def daysInMonth (y m : Nat) : Nat :=
  if m = 2 then (if isLeap y then 29 else 28)
  else if m = 4 ∨ m = 6 ∨ m = 9 ∨ m = 11 then 30
  else 31

deriving instance DecidableEq for Except

/-- Splits a character list at every occurrence of the separator. -/
def splitOnChar (c : Char) : List Char → List (List Char)
  | [] => [[]]
  | x :: xs =>
    let r := splitOnChar c xs
    if x = c then [] :: r
    else
      match r with
      | [] => [[x]]
      | h :: t => (x :: h) :: t

/-- Reads a nonempty run of decimal digits as a number; `none` otherwise. -/
def digitsToNat? (l : List Char) : Option Nat :=
  match l with
  | [] => none
  | _ =>
    l.foldl
      (fun acc c =>
        match acc with
        | none => none
        | some n => if c.isDigit then some (n * 10 + (c.toNat - 48)) else none)
      (some 0)

/-- Embedding of `datetime.strptime(s, "%Y-%m-%d %H:%M:%S")`: splits the
string on the literal separators, parses the six decimal fields and
validates their ranges; raises `ValueError` otherwise (as Python does). -/
def strptime (s : String) : Except PyError DateTime :=
  match splitOnChar ' ' s.toList with
  | [d, t] =>
    match splitOnChar '-' d, splitOnChar ':' t with
    | [ys, mos, das], [hs, mis, ses] =>
      match digitsToNat? ys, digitsToNat? mos, digitsToNat? das,
          digitsToNat? hs, digitsToNat? mis, digitsToNat? ses with
      | some y, some mo, some da, some h, some mi, some se =>
        if 1 ≤ mo ∧ mo ≤ 12 ∧ 1 ≤ da ∧ da ≤ daysInMonth y mo
            ∧ h ≤ 23 ∧ mi ≤ 59 ∧ se ≤ 59 then
          .ok ⟨y, mo, da, h, mi, se⟩
        else
          .error (.valueError "time data does not match format")
      | _, _, _, _, _, _ => .error (.valueError "time data does not match format")
    | _, _ => .error (.valueError "time data does not match format")
  | _ => .error (.valueError "time data does not match format")

/-- Days since 1970-01-01 of a civil date (standard era-based formula;
Euclidean division coincides with floor division on the nonnegative
operands that arise for years ≥ 1). -/
def daysFromCivil (y m d : Int) : Int :=
  let yy := if m ≤ 2 then y - 1 else y
  let era := (if 0 ≤ yy then yy else yy - 399) / 400
  let yoe := yy - era * 400
  let doy := (153 * (if 2 < m then m - 3 else m + 9) + 2) / 5 + d - 1
  let doe := yoe * 365 + yoe / 4 - yoe / 100 + doy
  era * 146097 + doe - 719468

/-- Absolute instant of a `DateTime` in seconds since the epoch. -/
def dateTimeToSec (dt : DateTime) : Int :=
  daysFromCivil dt.year dt.month dt.day * 86400
    + dt.hour * 3600 + dt.minute * 60 + dt.second

/-- One entry of `powerDetails.meters` in a power-detail response
(`fetch-latest.py`, `fetch_and_store_latest_power_details`).  A `none`
field models an absent dictionary key. -/
structure Sample where
  date? : Option String
  value? : Option Int
deriving DecidableEq, Repr

/-- A meter series entry: `{"type": ..., "values": [...]}`. -/
structure MeterEntry where
  typ : Option String
  vals : Option (List Sample)
deriving DecidableEq, Repr

/-- One battery telemetry entry of a `storageData.batteries` record. -/
structure Telemetry where
  timeStamp : Option String
  batteryPercentageState : Option Int
  power : Option Int
deriving DecidableEq, Repr

/-- One battery record of `storageData.batteries`. -/
structure BatteryEntry where
  modelNumber : Option String
  serialNumber : Option String
  telemetries : Option (List Telemetry)
deriving DecidableEq, Repr

/-- An InfluxDB point: measurement name, tags, timestamp, fields
(`influxdb_client.Point` as built by the scripts). -/
structure Point where
  measurement : String
  tags : List (String × String)
  time : DateTime
  fields : List (String × Int)
deriving DecidableEq, Repr

/-- Embedding of the per-sample body of the meter loop in
`fetch_and_store_latest_power_details` (`fetch-latest.py` lines 68-79):
a sample without a `value` key is skipped; otherwise `measurement["date"]`
is read (raising `KeyError` when absent) and parsed with `strptime`,
and one point is emitted. -/
def normalizeSample (unit powerType : String) (m : Sample) :
    Except PyError (List Point) :=
  match m.value? with
  | none => .ok []
  | some v =>
    match m.date? with
    | none => .error (.keyError "date")
    | some d => do
      let ts ← strptime d
      .ok [{ measurement := powerType, tags := [("unit", unit)],
             time := ts, fields := [("power", v)] }]

/-- Sequential processing of the samples of one meter entry, concatenating
the emitted points; an exception aborts the whole batch, as an uncaught
Python exception would. -/
def normalizeSamples (unit powerType : String) :
    List Sample → Except PyError (List Point)
  | [] => .ok []
  | m :: rest => do
    let p ← normalizeSample unit powerType m
    let r ← normalizeSamples unit powerType rest
    .ok (p ++ r)

/-- Embedding of the per-entry body of the meter loop in
`fetch_and_store_latest_power_details` (`fetch-latest.py` lines 60-79):
entries missing `type` or `values` are dropped with one diagnostic line;
otherwise the samples are processed.  The second component collects the
diagnostics printed to stderr. -/
def normalizeMeterEntry (unit : String) (e : MeterEntry) :
    Except PyError (List Point × List String) :=
  match e.typ with
  | none => .ok ([], ["data doesn’t contain type"])
  | some powerType =>
    match e.vals with
    | none => .ok ([], ["data doesn’t contain values"])
    | some vs => do
      let ps ← normalizeSamples unit powerType vs
      .ok (ps, [])

/-- Normalization of a whole meter aggregate: each entry in order,
points and diagnostics concatenated. -/
def normalizeMeters (unit : String) :
    List MeterEntry → Except PyError (List Point × List String)
  | [] => .ok ([], [])
  | e :: rest => do
    let a ← normalizeMeterEntry unit e
    let b ← normalizeMeters unit rest
    .ok (a.1 ++ b.1, a.2 ++ b.2)

/-- Embedding of the per-telemetry body in
`fetch_and_store_latest_battery_data` (`fetch-latest.py` lines 129-155):
telemetries missing `timeStamp`, `batteryPercentageState` or `power` are
skipped with one diagnostic each; otherwise the timestamp is parsed and
one point with fields `pct` and `watts` is emitted. -/
def normalizeTelemetry (model serial : String) (t : Telemetry) :
    Except PyError (List Point × List String) :=
  match t.timeStamp with
  | none => .ok ([], ["telemetry data doesn’t contain timeStamp"])
  | some tsStr =>
    match t.batteryPercentageState with
    | none => .ok ([], ["ERROR: telemetry data doesn’t contain ‘batteryPercentageState’"])
    | some pct =>
      match t.power with
      | none => .ok ([], ["telemetry data doesn’t contain ‘power’"])
      | some pw => do
        let ts ← strptime tsStr
        .ok ([{ measurement := "battery",
                tags := [("battery", model ++ " (" ++ serial ++ ")")],
                time := ts, fields := [("pct", pct), ("watts", pw)] }], [])

/-- Sequential processing of one record's telemetries. -/
def normalizeTelemetries (model serial : String) :
    List Telemetry → Except PyError (List Point × List String)
  | [] => .ok ([], [])
  | t :: rest => do
    let a ← normalizeTelemetry model serial t
    let b ← normalizeTelemetries model serial rest
    .ok (a.1 ++ b.1, a.2 ++ b.2)

/-- Embedding of the per-record body in
`fetch_and_store_latest_battery_data` (`fetch-latest.py` lines 120-155):
records missing `modelNumber` or `serialNumber` are skipped with one
diagnostic; otherwise `entry["telemetries"]` is read — raising `KeyError`
when the key is absent, exactly as the Python subscript does — and the
telemetries are processed. -/
def normalizeBatteryRecord (e : BatteryEntry) :
    Except PyError (List Point × List String) :=
  match e.modelNumber with
  | none => .ok ([], ["data doesn’t contain ‘modelNumber’"])
  | some model =>
    match e.serialNumber with
    | none => .ok ([], ["data doesn’t contain ‘serialNumber’"])
    | some serial =>
      match e.telemetries with
      | none => .error (.keyError "telemetries")
      | some ts => normalizeTelemetries model serial ts

/-- Normalization of a whole battery aggregate: each record in order,
points and diagnostics concatenated. -/
def normalizeBatteries :
    List BatteryEntry → Except PyError (List Point × List String)
  | [] => .ok ([], [])
  | e :: rest => do
    let a ← normalizeBatteryRecord e
    let b ← normalizeBatteries rest
    .ok (a.1 ++ b.1, a.2 ++ b.2)

/-- A parsed JSON value, as returned by `json.loads` and indexed by the
endpoint methods of `SolarEdgeMonitor` when unwrapping response
envelopes. -/
inductive Json
  | obj (entries : List (String × Json))
  | arr (elems : List Json)
  | str (s : String)
  | num (n : Int)
  | null
deriving Repr

/-- Python `data[key]` on a JSON value: `KeyError` on a dict without the
key, `TypeError` on a non-dict. -/
def Json.getItem : Json → String → Except PyError Json
  | .obj entries, k =>
    match entries.lookup k with
    | some v => .ok v
    | none => .error (.keyError k)
  | .str _, _ => .error (.typeError "string indices must be integers")
  | _, _ => .error (.typeError "object is not subscriptable")

/-- The data of a `json.JSONDecodeError`.  Its attributes are `msg`,
`doc` and `pos` — there is no `code` attribute. -/
structure JSONDecodeErrorData where
  msg : String
  doc : String
  pos : Nat
deriving DecidableEq, Repr

/-- Python attribute access on a `json.JSONDecodeError` value: defined
for `msg`, `doc` and `pos`, and `AttributeError` for anything else. -/
def jsonDecodeErrorGetAttr (e : JSONDecodeErrorData) (attr : String) :
    Except PyError String :=
  if attr = "msg" then .ok e.msg
  else if attr = "doc" then .ok e.doc
  else if attr = "pos" then .ok (toString e.pos)
  else .error (.attributeError ("JSONDecodeError object has no attribute " ++ attr))

/-- The outcome of `urllib.request.urlopen` + `json.loads` inside
`SolarEdgeMonitor.query`: a parsed body, a non-2xx `HTTPError`, or a
`JSONDecodeError` for a body that is not valid JSON. -/
inductive QueryOutcome
  | success (data : Json)
  | httpError (code : Int) (msg : String)
  | decodeError (e : JSONDecodeErrorData)

/-- Embedding of `SolarEdgeMonitor.query` (`solaredgemonitor/__init__.py`
lines 57-66).  On success the parsed data is returned.  The `HTTPError`
handler formats `e.code` and `e.msg`, which both exist, and falls through
returning `None`.  The `JSONDecodeError` handler formats `e.code` — an
attribute that `json.JSONDecodeError` does not have — so that handler
itself raises `AttributeError`. -/
def SolarEdgeMonitor.query (r : QueryOutcome) : Except PyError (Option Json) :=
  match r with
  | .success data => .ok (some data)
  | .httpError _ _ => .ok none
  | .decodeError e => do
    let _ ← jsonDecodeErrorGetAttr e "code"
    let _ ← jsonDecodeErrorGetAttr e "msg"
    .ok none

/-- Embedding of `SolarEdgeMonitor.batteries` (`solaredgemonitor/__init__.py`
lines 187-208): query, return `None` when the query returned `None`,
otherwise unwrap `data["storageData"]["batteries"]`, catching `KeyError`,
`TypeError` and `ValueError` (printing the error and returning `None`).
Any other exception — in particular the `AttributeError` raised inside
`query`'s decode-error handler — propagates. -/
def SolarEdgeMonitor.batteries (r : QueryOutcome) : Except PyError (Option Json) := do
  match ← SolarEdgeMonitor.query r with
  | none => .ok none
  | some data =>
    match (do let sd ← data.getItem "storageData"; sd.getItem "batteries" :
        Except PyError Json) with
    | .ok b => .ok (some b)
    | .error (.keyError _) => .ok none
    | .error (.typeError _) => .ok none
    | .error (.valueError _) => .ok none
    | .error e => .error e

/-- `MIN_DT = timedelta(seconds=1)` (`fetch-latest.py` line 18). -/
def minDt : Int := 1

/-- `MAX_LOOKBACK_BATTERY = timedelta(weeks=1)` in seconds
(`fetch-latest.py` line 20). -/
def maxLookbackBattery : Int := 7 * 24 * 3600

/-- `MAX_LOOKBACK_POWERDETAILS = timedelta(weeks=4)` in seconds
(`fetch-latest.py` line 21). -/
def maxLookbackPowerdetails : Int := 4 * 7 * 24 * 3600

/-- The sequence of cursor windows issued by the windowing loops
(`fetch-latest.py` lines 110-115 and 55-58, `fetch-history.py` lines
24-27 and 96-99): while `cursor < endT`, the window
`[cursor, cursor + chunk)` is issued and the cursor advances by `chunk`
— the code never clamps the window end to `endT`.  Every chunk size in
the source is a positive constant; the `0 < chunk` guard only makes the
definition total. -/
def subWindows (cursor endT chunk : Int) : List (Int × Int) :=
  if _h : 0 < chunk ∧ cursor < endT then
    (cursor, cursor + chunk) :: subWindows (cursor + chunk) endT chunk
  else []
termination_by (endT - cursor).toNat
decreasing_by omega

/-- Embedding of the fetch loop of `fetch_and_store_latest_battery_data`
(`fetch-latest.py` lines 108-115): per window, `mon.batteries` is called
with the start offset by `MIN_DT`; a `None` result is skipped and the
cursor still advances.  Returns the aggregated measurements and the list
of cursor windows issued. -/
def batteryLoop (fetch : Int → Int → Option (List BatteryEntry))
    (fromD toD : Int) : List BatteryEntry × List (Int × Int) :=
  if _h : fromD < toD then
    let endD := fromD + maxLookbackBattery
    let got := (fetch (fromD + minDt) endD).getD []
    let rest := batteryLoop fetch endD toD
    (got ++ rest.1, (fromD, endD) :: rest.2)
  else ([], [])
termination_by (toD - fromD).toNat
decreasing_by simp only [maxLookbackBattery] at *; omega

/-- Embedding of the fetch loop of `fetch_and_store_latest_power_details`
(`fetch-latest.py` lines 54-79): per window, `mon.power_detail` is called
with the start offset by `MIN_DT` and the result is unpacked as
`meters, unit = ...` — when the client returned `None` this unpacking
raises `TypeError` and the cycle terminates.  Otherwise the chunk is
normalized and the cursor advances.  Returns the aggregated points and
the cursor windows issued. -/
def powerDetailLoop (fetch : Int → Int → Option (List MeterEntry × String))
    (fromD toD : Int) : Except PyError (List Point × List (Int × Int)) :=
  if _h : fromD < toD then
    let endD := fromD + maxLookbackPowerdetails
    match fetch (fromD + minDt) endD with
    | none => .error (.typeError "cannot unpack non-iterable NoneType object")
    | some (meters, unit) => do
      let pr ← normalizeMeters unit meters
      let rest ← powerDetailLoop fetch endD toD
      .ok (pr.1 ++ rest.1, (fromD, endD) :: rest.2)
  else .ok ([], [])
termination_by (toD - fromD).toNat
decreasing_by simp only [maxLookbackPowerdetails] at *; omega

/-- The update step of the watermark scan:
`if from_date > t: from_date = t` (`fetch-latest.py` lines 48-49). -/
def wmStep (fromDate t : Int) : Int :=
  if fromDate > t then t else fromDate

/-- The far-future sentinel `datetime(2199, 12, 31)` as seconds
(`fetch-latest.py` lines 44 and 100). -/
def sentinelSec : Int := dateTimeToSec ⟨2199, 12, 31, 0, 0, 0⟩

/-- Embedding of the watermark scan of `fetch_and_store_latest_power_details`
and `fetch_and_store_latest_battery_data` (`fetch-latest.py` lines 44-49
and 100-105): start from the sentinel and replace it by every returned
"last point" timestamp that is smaller. -/
def resolveWatermark (lastTimes : List Int) : Int :=
  lastTimes.foldl wmStep sentinelSec

/-- The fetch-window start actually used by the poll cycle: the resolver
result is fed directly into the `while from_date < to_date` loop
(`fetch-latest.py` lines 44-58); no sentinel check or replacement occurs
between the two. -/
def cycleStartUsed (lastTimes : List Int) : Int :=
  resolveWatermark lastTimes

/-- The whole pure core of one `fetch_and_store_latest_power_details`
cycle: resolve the watermark from the "last point" timestamps and run the
windowed fetch loop up to `now`. -/
def fetchLatestPowerDetailsCycle (lastTimes : List Int) (now : Int)
    (fetch : Int → Int → Option (List MeterEntry × String)) :
    Except PyError (List Point × List (Int × Int)) :=
  powerDetailLoop fetch (cycleStartUsed lastTimes) now

/-- The two dispatch modes of `influxdb_client`'s write API. -/
inductive WriteMode
  | asynchronous
  | synchronous
deriving DecidableEq, Repr

/-- Write mode of the steady-polling power-details path:
`write_api(write_options=ASYNCHRONOUS)` (`fetch-latest.py` line 51). -/
def fetchLatestPowerDetailsWriteMode : WriteMode := .asynchronous

/-- Write mode of the steady-polling battery path:
`write_api(write_options=SYNCHRONOUS)` (`fetch-latest.py` line 119). -/
def fetchLatestBatteryWriteMode : WriteMode := .synchronous

/-- Write mode of the full-history battery backfill `_json_to_db`:
`write_api(write_options=ASYNCHRONOUS)` (`fetch-history.py` line 47). -/
def jsonToDbWriteMode : WriteMode := .asynchronous

/-- Write mode of the full-history power-details backfill
`_fetch_and_store_powerdetail_history`:
`write_api(write_options=ASYNCHRONOUS)` (`fetch-history.py` line 92). -/
def powerdetailHistoryWriteMode : WriteMode := .asynchronous

theorem subWindows_step {chunk s e : Int} (hc : 0 < chunk) (hse : s < e) :
    subWindows s e chunk = (s, s + chunk) :: subWindows (s + chunk) e chunk := by
  rw [subWindows]
  rw [dif_pos ⟨hc, hse⟩]

theorem subWindows_stop {chunk s e : Int} (h : ¬ s < e) :
    subWindows s e chunk = [] := by
  rw [subWindows]
  rw [dif_neg (by omega)]

theorem subWindows_length_aux {chunk : Int} (hc : 0 < chunk) :
    ∀ (N : Nat) (s e : Int), (e - s).toNat ≤ N → s < e →
      ((subWindows s e chunk).length : Int) = (e - s + chunk - 1) / chunk := by
  intro N
  induction N with
  | zero => intro s e hN hse; omega
  | succ N ih =>
    intro s e hN hse
    rw [subWindows_step hc hse]
    by_cases h2 : s + chunk < e
    · have hrec := ih (s + chunk) e (by omega) h2
      simp only [List.length_cons]
      push_cast
      rw [hrec]
      have he1 : e - (s + chunk) + chunk - 1 = e - s - 1 := by ring
      rw [he1]
      have he2 : e - s + chunk - 1 = e - s - 1 + 1 * chunk := by ring
      rw [he2, Int.add_mul_ediv_right _ _ (by omega : chunk ≠ 0)]
    · rw [subWindows_stop (by omega)]
      simp only [List.length_cons, List.length_nil]
      have he2 : e - s + chunk - 1 = e - s - 1 + 1 * chunk := by ring
      rw [he2, Int.add_mul_ediv_right _ _ (by omega : chunk ≠ 0)]
      rw [Int.ediv_eq_zero_of_lt (by omega) (by omega)]
      norm_num

theorem subWindows_length {chunk s e : Int} (hc : 0 < chunk) (hse : s < e) :
    ((subWindows s e chunk).length : Int) = (e - s + chunk - 1) / chunk :=
  subWindows_length_aux hc (e - s).toNat s e le_rfl hse

theorem subWindows_eq_range_aux {chunk : Int} (hc : 0 < chunk) :
    ∀ (N : Nat) (s e : Int), (e - s).toNat ≤ N →
      subWindows s e chunk = (List.range (subWindows s e chunk).length).map
        (fun k : Nat => (s + (k : Int) * chunk, s + ((k : Int) + 1) * chunk)) := by
  intro N
  induction N with
  | zero =>
    intro s e hN
    rw [subWindows_stop (by omega)]
    simp
  | succ N ih =>
    intro s e hN
    by_cases hse : s < e
    · rw [subWindows_step hc hse]
      have hrec := ih (s + chunk) e (by omega)
      simp only [List.length_cons]
      rw [List.range_succ_eq_map]
      simp only [List.map_cons, List.map_map]
      have hhead : (s + ((0 : Nat) : Int) * chunk, s + (((0 : Nat) : Int) + 1) * chunk)
          = (s, s + chunk) := by
        norm_num
      rw [hhead]
      congr 1
      conv_lhs => rw [hrec]
      apply List.map_congr_left
      intro k _
      simp only [Function.comp_apply, Nat.succ_eq_add_one, Prod.mk.injEq]
      constructor <;> (push_cast; ring)
    · rw [subWindows_stop hse]
      simp

theorem subWindows_eq_range {chunk s e : Int} (hc : 0 < chunk) :
    subWindows s e chunk = (List.range (subWindows s e chunk).length).map
      (fun k : Nat => (s + (k : Int) * chunk, s + ((k : Int) + 1) * chunk)) :=
  subWindows_eq_range_aux hc (e - s).toNat s e le_rfl

theorem subWindows_covers {chunk s e : Int} (hc : 0 < chunk) (hse : s < e) :
    e ≤ s + ((subWindows s e chunk).length : Int) * chunk ∧
    s + (((subWindows s e chunk).length : Int) - 1) * chunk < e := by
  have hn := subWindows_length hc hse
  set n : Int := ((subWindows s e chunk).length : Int) with hdefn
  have hdm := Int.ediv_add_emod (e - s + chunk - 1) chunk
  have hr0 : 0 ≤ (e - s + chunk - 1) % chunk := Int.emod_nonneg _ (by omega)
  have hr1 : (e - s + chunk - 1) % chunk < chunk := Int.emod_lt_of_pos _ hc
  rw [← hn] at hdm
  have hcm : n * chunk = chunk * n := mul_comm _ _
  have hex : (n - 1) * chunk = n * chunk - chunk := by ring
  constructor
  · linarith
  · linarith

theorem subWindows_pairwise_lt {chunk s e : Int} (hc : 0 < chunk) :
    (subWindows s e chunk).Pairwise (fun w1 w2 => w1.1 < w2.1) := by
  rw [subWindows_eq_range (e := e) hc]
  apply List.Pairwise.map
    (R := (· < ·))
    (S := fun w1 w2 : Int × Int => w1.1 < w2.1)
  · intro a b hab
    simp only
    have : (a : Int) < (b : Int) := by exact_mod_cast hab
    have := mul_lt_mul_of_pos_right this hc
    omega
  · exact List.pairwise_lt_range _

theorem batteryLoop_step {f : Int → Int → Option (List BatteryEntry)} {s e : Int}
    (h : s < e) :
    batteryLoop f s e =
      ((f (s + minDt) (s + maxLookbackBattery)).getD []
          ++ (batteryLoop f (s + maxLookbackBattery) e).1,
        (s, s + maxLookbackBattery) :: (batteryLoop f (s + maxLookbackBattery) e).2) := by
  rw [batteryLoop]
  rw [dif_pos h]

theorem batteryLoop_stop {f : Int → Int → Option (List BatteryEntry)} {s e : Int}
    (h : ¬ s < e) :
    batteryLoop f s e = ([], []) := by
  rw [batteryLoop]
  rw [dif_neg h]

theorem batteryLoop_windows_aux (f : Int → Int → Option (List BatteryEntry)) :
    ∀ (N : Nat) (s e : Int), (e - s).toNat ≤ N →
      (batteryLoop f s e).2 = subWindows s e maxLookbackBattery := by
  intro N
  induction N with
  | zero =>
    intro s e hN
    rw [batteryLoop_stop (by omega), subWindows_stop (by omega)]
  | succ N ih =>
    intro s e hN
    by_cases hse : s < e
    · rw [batteryLoop_step hse,
        subWindows_step (by norm_num [maxLookbackBattery]) hse]
      simp only [List.cons.injEq, true_and]
      exact ih (s + maxLookbackBattery) e (by simp only [maxLookbackBattery] at *; omega)
    · rw [batteryLoop_stop hse, subWindows_stop hse]

theorem batteryLoop_windows (f : Int → Int → Option (List BatteryEntry)) (s e : Int) :
    (batteryLoop f s e).2 = subWindows s e maxLookbackBattery :=
  batteryLoop_windows_aux f (e - s).toNat s e le_rfl

theorem wmFold_le_init : ∀ (l : List Int) (a : Int), l.foldl wmStep a ≤ a := by
  intro l
  induction l with
  | nil => simp
  | cons t l ih =>
    intro a
    simp only [List.foldl_cons]
    calc l.foldl wmStep (wmStep a t) ≤ wmStep a t := ih _
    _ ≤ a := by unfold wmStep; split <;> omega

theorem wmFold_le (l : List Int) : ∀ (a t : Int), t ∈ l → l.foldl wmStep a ≤ t := by
  induction l with
  | nil => simp
  | cons x l ih =>
    intro a t ht
    simp only [List.foldl_cons]
    rcases List.mem_cons.mp ht with h | h
    · subst h
      calc l.foldl wmStep (wmStep a t) ≤ wmStep a t := wmFold_le_init _ _
      _ ≤ t := by unfold wmStep; split <;> omega
    · exact ih _ _ h

theorem wmFold_mem (l : List Int) : ∀ a, l.foldl wmStep a = a ∨ l.foldl wmStep a ∈ l := by
  induction l with
  | nil => intro a; left; rfl
  | cons x l ih =>
    intro a
    simp only [List.foldl_cons]
    rcases ih (wmStep a x) with h | h
    · rw [h]
      unfold wmStep
      split
      · right; exact List.mem_cons_self _ _
      · left; rfl
    · right; exact List.mem_cons_of_mem _ h

theorem subWindows_length_le_aux {chunk : Int} (hc : 0 < chunk) :
    ∀ (N : Nat) (s e : Int), (e - s).toNat ≤ N →
      (subWindows s e chunk).length ≤ (e - s).toNat := by
  intro N
  induction N with
  | zero =>
    intro s e hN
    rw [subWindows_stop (by omega)]
    simp
  | succ N ih =>
    intro s e hN
    by_cases hse : s < e
    · rw [subWindows_step hc hse]
      simp only [List.length_cons]
      have := ih (s + chunk) e (by omega)
      omega
    · rw [subWindows_stop hse]
      simp

theorem subWindows_length_le {chunk s e : Int} (hc : 0 < chunk) :
    (subWindows s e chunk).length ≤ (e - s).toNat :=
  subWindows_length_le_aux hc (e - s).toNat s e le_rfl

/-- Claim C1, counterexample.  For the requested range `[0, 3)` with
`max_chunk = 2` (so `E − S > max_chunk`), the claim predicts the windows
`[(0, 2), (2, 3)]` — the second one clamped by
`next_cursor = min(cursor + max_chunk, end)` so that the windows tile
`[0, 3)` exactly.  The code never clamps: the second issued window is
`(2, 4)`, whose end lies beyond the requested end `3`. -/
theorem claim1_counterexample :
    subWindows 0 3 2 = [(0, 2), (2, 4)] ∧ subWindows 0 3 2 ≠ [(0, 2), (2, 3)] := by
  have h : subWindows 0 3 2 = [(0, 2), (2, 4)] := by simp [subWindows]
  refine ⟨h, ?_⟩
  rw [h]
  decide

/-- Claim C1, amended.  For `S < E` the windowing loop issues exactly
`⌈(E − S) / max_chunk⌉` sub-requests; the `k`-th issued window is
`[S + k·max_chunk, S + (k+1)·max_chunk)` — consecutive windows are
adjacent (no gaps, no overlaps) and their union covers `[S, E)` — but the
cursor is never clamped to `E`, so the final window's end is
`S + n·max_chunk`, which can exceed `E`.  For `S ≥ E` zero sub-requests
are issued and the aggregate is empty. -/
theorem claim1_amended (s e chunk : Int) (hc : 0 < chunk) :
    (s < e →
      ((subWindows s e chunk).length : Int) = (e - s + chunk - 1) / chunk ∧
      subWindows s e chunk = (List.range (subWindows s e chunk).length).map
        (fun k : Nat => (s + (k : Int) * chunk, s + ((k : Int) + 1) * chunk)) ∧
      e ≤ s + ((subWindows s e chunk).length : Int) * chunk ∧
      s + (((subWindows s e chunk).length : Int) - 1) * chunk < e) ∧
    (e ≤ s → subWindows s e chunk = [] ∧
      ∀ f, batteryLoop f s e = ([], [])) := by
  constructor
  · intro hse
    exact ⟨subWindows_length hc hse, subWindows_eq_range hc,
      (subWindows_covers hc hse).1, (subWindows_covers hc hse).2⟩
  · intro hes
    exact ⟨subWindows_stop (by omega), fun f => batteryLoop_stop (by omega)⟩

/-- Witness for `claim1_amended`: the `S < E` part at `S = 0`, `E = 3`,
`max_chunk = 2`, and the `S ≥ E` part at `S = 3`, `E = 0`. -/
theorem claim1_amended_witness :
    (((subWindows 0 3 2).length : Int) = (3 - 0 + 2 - 1) / 2 ∧
      subWindows 0 3 2 = (List.range (subWindows 0 3 2).length).map
        (fun k : Nat => (0 + (k : Int) * 2, 0 + ((k : Int) + 1) * 2)) ∧
      (3 : Int) ≤ 0 + ((subWindows 0 3 2).length : Int) * 2 ∧
      0 + (((subWindows 0 3 2).length : Int) - 1) * 2 < 3) ∧
    (subWindows 3 0 2 = [] ∧ ∀ f, batteryLoop f 3 0 = ([], [])) :=
  ⟨(claim1_amended 0 3 2 (by decide)).1 (by decide),
   (claim1_amended 3 0 2 (by decide)).2 (by decide)⟩

/-- Claim C5: normalizing the meter entry
`{"type": "Production", "values": [{"date": "2024-01-01 00:00:00", "value": 1500}]}`
with unit `"W"` yields exactly one point — measurement `Production`, tag
`unit=W`, field `power=1500`, timestamp 2024-01-01T00:00:00 — and no
diagnostic; and for every meter entry, a sample lacking the `value` key
contributes zero points, so an entry whose only sample has no `value`
yields zero points. -/
theorem claim5_meter_normalization :
    normalizeMeters "W"
        [{ typ := some "Production",
           vals := some [{ date? := some "2024-01-01 00:00:00", value? := some 1500 }] }]
      = .ok ([{ measurement := "Production", tags := [("unit", "W")],
                time := ⟨2024, 1, 1, 0, 0, 0⟩, fields := [("power", 1500)] }], []) ∧
    (∀ (u t : String) (d : Option String),
      normalizeSample u t { date? := d, value? := none } = .ok []) ∧
    (∀ (u t : String) (d : Option String),
      normalizeMeterEntry u
          { typ := some t, vals := some [{ date? := d, value? := none }] }
        = .ok ([], [])) := by
  refine ⟨by decide, ?_, ?_⟩
  · intro u t d
    rfl
  · intro u t d
    rfl

/-- Claim C8: a battery record missing `serialNumber` (or `modelNumber`)
yields zero points and exactly one diagnostic, regardless of its
telemetries, and the sibling records of the aggregate still process: the
result for `e :: rest` is the result for `rest` with `e`'s single
diagnostic prepended and no extra points. -/
theorem claim8_battery_identity_skip (e : BatteryEntry) (rest : List BatteryEntry)
    (h : e.modelNumber = none ∨ e.serialNumber = none) :
    normalizeBatteryRecord e
      = .ok ([], [if e.modelNumber = none then "data doesn’t contain ‘modelNumber’"
                  else "data doesn’t contain ‘serialNumber’"]) ∧
    normalizeBatteries (e :: rest)
      = Except.map
          (fun pr => (pr.1,
            (if e.modelNumber = none then "data doesn’t contain ‘modelNumber’"
             else "data doesn’t contain ‘serialNumber’") :: pr.2))
          (normalizeBatteries rest) := by
  have h1 : normalizeBatteryRecord e
      = .ok ([], [if e.modelNumber = none then "data doesn’t contain ‘modelNumber’"
                  else "data doesn’t contain ‘serialNumber’"]) := by
    rcases e with ⟨mo, se, te⟩
    cases mo with
    | none => simp [normalizeBatteryRecord]
    | some m =>
      cases se with
      | none => simp [normalizeBatteryRecord]
      | some s => simp at h
  refine ⟨h1, ?_⟩
  cases hrest : normalizeBatteries rest with
  | ok b =>
    simp only [normalizeBatteries, h1, hrest, Except.map]
    rfl
  | error err =>
    simp only [normalizeBatteries, h1, hrest, Except.map]
    rfl

/-- Witness for `claim8_battery_identity_skip`: a record with a model
number, no serial number, and one fully valid telemetry yields zero
points and the single serial-number diagnostic. -/
theorem claim8_battery_identity_skip_witness :
    normalizeBatteryRecord
        ⟨some "LG RESU10H", none,
          some [⟨some "2024-01-01 00:00:00", some 55, some 1200⟩]⟩
      = .ok ([], ["data doesn’t contain ‘serialNumber’"]) ∧
    normalizeBatteries
        [⟨some "LG RESU10H", none,
          some [⟨some "2024-01-01 00:00:00", some 55, some 1200⟩]⟩]
      = Except.map (fun pr => (pr.1, "data doesn’t contain ‘serialNumber’" :: pr.2))
          (normalizeBatteries []) :=
  claim8_battery_identity_skip
    ⟨some "LG RESU10H", none,
      some [⟨some "2024-01-01 00:00:00", some 55, some 1200⟩]⟩
    [] (Or.inr rfl)

/-- A telemetry entry on which the battery normalizer cannot raise:
whenever the three checked fields are all present, the timestamp string
must parse. -/
def telemetryOk (t : Telemetry) : Bool :=
  match t.timeStamp, t.batteryPercentageState, t.power with
  | some ts, some _, some _ => (strptime ts).isOk
  | _, _, _ => true

/-- A battery record on which the normalizer cannot raise: whenever both
identity fields are present, the `telemetries` key must also be present
and each telemetry must satisfy `telemetryOk`. -/
def batteryEntryOk (e : BatteryEntry) : Bool :=
  match e.modelNumber, e.serialNumber with
  | some _, some _ =>
    match e.telemetries with
    | none => false
    | some ts => ts.all telemetryOk
  | _, _ => true

/-- A sample on which the meter normalizer cannot raise: whenever the
`value` key is present, the `date` key must also be present and parse. -/
def sampleOk (m : Sample) : Bool :=
  match m.value? with
  | none => true
  | some _ =>
    match m.date? with
    | none => false
    | some d => (strptime d).isOk

/-- A meter entry on which the normalizer cannot raise: whenever both
`type` and `values` are present, each sample must satisfy `sampleOk`. -/
def meterEntryOk (e : MeterEntry) : Bool :=
  match e.typ, e.vals with
  | some _, some vs => vs.all sampleOk
  | _, _ => true

theorem normalizeTelemetry_ok (model serial : String) (t : Telemetry)
    (h : telemetryOk t = true) :
    (normalizeTelemetry model serial t).isOk = true := by
  rcases t with ⟨ts, pc, pw⟩
  cases ts with
  | none => rfl
  | some tsStr =>
    cases pc with
    | none => rfl
    | some pct =>
      cases pw with
      | none => rfl
      | some pwv =>
        simp only [telemetryOk] at h
        simp only [normalizeTelemetry]
        cases hp : strptime tsStr with
        | ok dt => rfl
        | error err => rw [hp] at h; exact Bool.noConfusion h

theorem normalizeTelemetries_ok (model serial : String) (ts : List Telemetry)
    (h : ts.all telemetryOk = true) :
    (normalizeTelemetries model serial ts).isOk = true := by
  induction ts with
  | nil => rfl
  | cons t rest ih =>
    simp only [List.all_cons, Bool.and_eq_true] at h
    have h1 := normalizeTelemetry_ok model serial t h.1
    have h2 := ih h.2
    simp only [normalizeTelemetries]
    cases ha : normalizeTelemetry model serial t with
    | error err => rw [ha] at h1; exact Bool.noConfusion h1
    | ok a =>
      cases hb : normalizeTelemetries model serial rest with
      | error err => rw [hb] at h2; exact Bool.noConfusion h2
      | ok b => rfl

theorem normalizeBatteryRecord_ok (e : BatteryEntry)
    (h : batteryEntryOk e = true) :
    (normalizeBatteryRecord e).isOk = true := by
  rcases e with ⟨mo, se, te⟩
  cases mo with
  | none => rfl
  | some m =>
    cases se with
    | none => rfl
    | some s =>
      cases te with
      | none => exact absurd h (by simp [batteryEntryOk])
      | some ts =>
        simp only [batteryEntryOk] at h
        exact normalizeTelemetries_ok m s ts h

theorem normalizeBatteries_ok (es : List BatteryEntry)
    (h : ∀ e ∈ es, batteryEntryOk e = true) :
    (normalizeBatteries es).isOk = true := by
  induction es with
  | nil => rfl
  | cons e rest ih =>
    have h1 := normalizeBatteryRecord_ok e (h e (List.mem_cons_self e rest))
    have h2 := ih (fun x hx => h x (List.mem_cons_of_mem e hx))
    simp only [normalizeBatteries]
    cases ha : normalizeBatteryRecord e with
    | error err => rw [ha] at h1; exact Bool.noConfusion h1
    | ok a =>
      cases hb : normalizeBatteries rest with
      | error err => rw [hb] at h2; exact Bool.noConfusion h2
      | ok b => rfl

theorem normalizeSample_ok (u t : String) (m : Sample)
    (h : sampleOk m = true) :
    (normalizeSample u t m).isOk = true := by
  rcases m with ⟨d, v⟩
  cases v with
  | none => rfl
  | some vv =>
    cases d with
    | none => exact absurd h (by simp [sampleOk])
    | some ds =>
      simp only [sampleOk] at h
      simp only [normalizeSample]
      cases hp : strptime ds with
      | ok dt => rfl
      | error err => rw [hp] at h; exact Bool.noConfusion h

theorem normalizeSamples_ok (u t : String) (vs : List Sample)
    (h : vs.all sampleOk = true) :
    (normalizeSamples u t vs).isOk = true := by
  induction vs with
  | nil => rfl
  | cons v rest ih =>
    simp only [List.all_cons, Bool.and_eq_true] at h
    have h1 := normalizeSample_ok u t v h.1
    have h2 := ih h.2
    simp only [normalizeSamples]
    cases ha : normalizeSample u t v with
    | error err => rw [ha] at h1; exact Bool.noConfusion h1
    | ok a =>
      cases hb : normalizeSamples u t rest with
      | error err => rw [hb] at h2; exact Bool.noConfusion h2
      | ok b => rfl

theorem normalizeMeterEntry_ok (u : String) (e : MeterEntry)
    (h : meterEntryOk e = true) :
    (normalizeMeterEntry u e).isOk = true := by
  rcases e with ⟨ty, vs⟩
  cases ty with
  | none => rfl
  | some tyv =>
    cases vs with
    | none => rfl
    | some vl =>
      simp only [meterEntryOk] at h
      have h1 := normalizeSamples_ok u tyv vl h
      simp only [normalizeMeterEntry]
      cases ha : normalizeSamples u tyv vl with
      | error err => rw [ha] at h1; exact Bool.noConfusion h1
      | ok a => rfl

theorem normalizeMeters_ok (u : String) (ms : List MeterEntry)
    (h : ∀ m ∈ ms, meterEntryOk m = true) :
    (normalizeMeters u ms).isOk = true := by
  induction ms with
  | nil => rfl
  | cons e rest ih =>
    have h1 := normalizeMeterEntry_ok u e (h e (List.mem_cons_self e rest))
    have h2 := ih (fun x hx => h x (List.mem_cons_of_mem e hx))
    simp only [normalizeMeters]
    cases ha : normalizeMeterEntry u e with
    | error err => rw [ha] at h1; exact Bool.noConfusion h1
    | ok a =>
      cases hb : normalizeMeters u rest with
      | error err => rw [hb] at h2; exact Bool.noConfusion h2
      | ok b => rfl

/-- Claim C2, counterexample.  The normalizer does raise for some
malformed aggregates: a battery record whose identity fields are present
but whose `telemetries` key is absent raises `KeyError` at
`entry["telemetries"]`, and a meter sample that has a `value` but no
`date` key raises `KeyError` at `measurement["date"]` — contradicting
"never raises", "does not raise for a battery record whose identity
fields are present", and "does not raise for a sample whose fields are
partially present". -/
theorem claim2_counterexample :
    normalizeBatteries [⟨some "B1", some "SN1", none⟩]
      = .error (.keyError "telemetries") ∧
    normalizeMeters "W" [⟨some "Production", some [⟨none, some 1500⟩]⟩]
      = .error (.keyError "date") := by
  constructor <;> rfl

/-- Claim C2, amended.  The normalizer never raises on aggregates whose
malformed parts are among the shapes it checks: any combination of
missing `type`/`values`, missing sample `value`, missing identity
fields, or missing telemetry fields is dropped or skipped with a
diagnostic and processing continues.  It does raise (`KeyError` or
`ValueError`) when a record with both identity fields lacks the
`telemetries` key, when a sample has a `value` but no `date` key, or
when a reached date string fails to parse; absent those three shapes
(`batteryEntryOk`/`meterEntryOk`), normalization always returns a
result. -/
theorem claim2_amended (es : List BatteryEntry) (ms : List MeterEntry) (u : String)
    (h1 : ∀ e ∈ es, batteryEntryOk e = true)
    (h2 : ∀ m ∈ ms, meterEntryOk m = true) :
    (normalizeBatteries es).isOk = true ∧ (normalizeMeters u ms).isOk = true :=
  ⟨normalizeBatteries_ok es h1, normalizeMeters_ok u ms h2⟩

/-- Witness for `claim2_amended`: an aggregate made entirely of malformed
entries of the checked shapes — a record with no identity fields, a
record whose telemetries each miss one field, a meter entry with no
`type`, one with no `values`, and one whose sample has no `value` — is
normalized without raising. -/
theorem claim2_amended_witness :
    (normalizeBatteries
        [⟨none, some "SN1", none⟩,
         ⟨some "B1", some "SN1",
          some [⟨none, some 50, some 100⟩,
                ⟨some "2024-01-01 00:00:00", none, some 100⟩,
                ⟨some "2024-01-01 00:00:00", some 50, none⟩]⟩]).isOk = true ∧
    (normalizeMeters "W"
        [⟨none, some []⟩, ⟨some "Production", none⟩,
         ⟨some "Production", some [⟨some "2024-01-01 00:00:00", none⟩]⟩]).isOk = true :=
  claim2_amended
    [⟨none, some "SN1", none⟩,
     ⟨some "B1", some "SN1",
      some [⟨none, some 50, some 100⟩,
            ⟨some "2024-01-01 00:00:00", none, some 100⟩,
            ⟨some "2024-01-01 00:00:00", some 50, none⟩]⟩]
    [⟨none, some []⟩, ⟨some "Production", none⟩,
     ⟨some "Production", some [⟨some "2024-01-01 00:00:00", none⟩]⟩]
    "W" (by decide) (by decide)

theorem powerDetailLoop_stop {fetch : Int → Int → Option (List MeterEntry × String)}
    {s e : Int} (h : ¬ s < e) :
    powerDetailLoop fetch s e = .ok ([], []) := by
  rw [powerDetailLoop]
  rw [dif_neg h]

/-- Claim C3: evaluation at the failing input.  A non-2xx HTTP response
and a mismatched envelope are indeed degraded to "no data" (`None`), but
an invalid-JSON body is not: the `JSONDecodeError` handler inside
`SolarEdgeMonitor.query` formats `e.code`, an attribute that
`json.JSONDecodeError` does not have, so the handler itself raises
`AttributeError`, which propagates past the endpoint method's boundary. -/
theorem claim3_code_bug :
    SolarEdgeMonitor.batteries (.httpError 403 "Forbidden") = .ok none ∧
    SolarEdgeMonitor.batteries (.success (Json.obj [])) = .ok none ∧
    SolarEdgeMonitor.batteries
        (.decodeError ⟨"Expecting value: line 1 column 1 (char 0)", "<html>", 0⟩)
      = .error (.attributeError "JSONDecodeError object has no attribute code") :=
  ⟨rfl, rfl, rfl⟩

/-- Claim C4: evaluation at the failing input.  When the provider client
returns no data for a chunk, the power-details poll cycle terminates: the
unpacking `meters, unit = mon.power_detail(...)` raises `TypeError` on
`None`.  (The battery path of the same script checks for `None` and
continues, still advancing the cursor.) -/
theorem claim4_code_bug :
    powerDetailLoop (fun _ _ => none) 0 1
      = .error (.typeError "cannot unpack non-iterable NoneType object") ∧
    batteryLoop (fun _ _ => none) 0 1 = ([], [(0, maxLookbackBattery)]) := by
  constructor
  · simp [powerDetailLoop]
  · simp [batteryLoop, batteryLoop_stop, maxLookbackBattery]

/-- Claim C6, counterexample.  The scan folds the returned timestamps
into `min(sentinel, ...)`, not their plain minimum: for a result set
containing the single timestamp 2200-01-01 (later than the 2199-12-31
sentinel), the claim predicts that timestamp, but the code returns the
sentinel. -/
theorem claim6_counterexample :
    resolveWatermark [dateTimeToSec ⟨2200, 1, 1, 0, 0, 0⟩] = sentinelSec ∧
    resolveWatermark [dateTimeToSec ⟨2200, 1, 1, 0, 0, 0⟩]
      ≠ dateTimeToSec ⟨2200, 1, 1, 0, 0, 0⟩ := by
  constructor
  · decide
  · decide

/-- Claim C6, amended.  The Watermark Resolver reduces the returned
timestamps together with the far-future sentinel to their minimum: over
an empty result set it returns the sentinel 2199-12-31, and whenever
every returned timestamp is at most the sentinel (every realistic result
set), the result is the minimum of the returned timestamps. -/
theorem claim6_amended (ts : List Int) :
    resolveWatermark [] = sentinelSec ∧
    ((∀ t ∈ ts, t ≤ sentinelSec) → ts ≠ [] →
      resolveWatermark ts ∈ ts ∧ ∀ t ∈ ts, resolveWatermark ts ≤ t) := by
  refine ⟨rfl, ?_⟩
  intro hle hne
  have hmem : resolveWatermark ts = sentinelSec ∨ resolveWatermark ts ∈ ts :=
    wmFold_mem ts sentinelSec
  have hlef : ∀ t ∈ ts, resolveWatermark ts ≤ t :=
    fun t ht => wmFold_le ts sentinelSec t ht
  rcases hmem with h | h
  · cases ts with
    | nil => exact absurd rfl hne
    | cons t0 rest =>
      have h1 : resolveWatermark (t0 :: rest) ≤ t0 :=
        hlef t0 (List.mem_cons_self _ _)
      have h2 : t0 ≤ sentinelSec := hle t0 (List.mem_cons_self _ _)
      have h3 : resolveWatermark (t0 :: rest) = t0 := by omega
      refine ⟨?_, hlef⟩
      rw [h3]
      exact List.mem_cons_self _ _
  · exact ⟨h, hlef⟩

/-- Witness for `claim6_amended` at the one-element result set `[42]`. -/
theorem claim6_amended_witness :
    resolveWatermark [] = sentinelSec ∧
    (resolveWatermark [42] ∈ [(42 : Int)] ∧
      ∀ t ∈ [(42 : Int)], resolveWatermark [42] ≤ t) :=
  ⟨(claim6_amended [42]).1, (claim6_amended [42]).2 (by decide) (by decide)⟩

/-- Claim C7, counterexample.  When the resolver yields the far-future
sentinel (empty result set), the poll cycle does not replace it: the
fetch-window start actually used is the sentinel itself, not the
configured installation date (2023-08-10 in the repository's own
history path). -/
theorem claim7_counterexample :
    cycleStartUsed [] = sentinelSec ∧
    cycleStartUsed [] ≠ dateTimeToSec ⟨2023, 8, 10, 0, 0, 0⟩ := by
  constructor
  · rfl
  · decide

/-- Claim C7, amended.  The caller never recognizes or replaces the
sentinel.  Instead, for an empty result set the window start used is the
sentinel itself, and since every current time is before 2199-12-31 the
loop guard `from_date < to_date` fails immediately: zero sub-requests
are issued and nothing — in particular not the sentinel — is written
back.  (The configured installation date is used only by the separate
full-history path, which never consults the resolver.) -/
theorem claim7_amended (now : Int)
    (fetch : Int → Int → Option (List MeterEntry × String))
    (h : now ≤ sentinelSec) :
    cycleStartUsed [] = sentinelSec ∧
    fetchLatestPowerDetailsCycle [] now fetch = .ok ([], []) := by
  refine ⟨rfl, ?_⟩
  unfold fetchLatestPowerDetailsCycle
  have hs : cycleStartUsed [] = sentinelSec := rfl
  exact powerDetailLoop_stop (by omega)

/-- Witness for `claim7_amended` at a present-day clock value. -/
theorem claim7_amended_witness :
    cycleStartUsed [] = sentinelSec ∧
    fetchLatestPowerDetailsCycle [] (dateTimeToSec ⟨2025, 10, 12, 0, 0, 0⟩)
        (fun _ _ => some ([], "W")) = .ok ([], []) :=
  claim7_amended (dateTimeToSec ⟨2025, 10, 12, 0, 0, 0⟩)
    (fun _ _ => some ([], "W")) (by decide)

/-- Claim C9, counterexample.  The full-history backfill path
(`_json_to_db`) dispatches with the asynchronous fire-and-forget mode,
not the synchronous wait-for-ack mode the claim assigns to it; and the
steady-polling battery path uses the synchronous mode, not the
asynchronous one. -/
theorem claim9_counterexample :
    jsonToDbWriteMode = WriteMode.asynchronous ∧
    jsonToDbWriteMode ≠ WriteMode.synchronous ∧
    fetchLatestBatteryWriteMode = WriteMode.synchronous ∧
    fetchLatestBatteryWriteMode ≠ WriteMode.asynchronous :=
  ⟨rfl, by decide, rfl, by decide⟩

/-- Claim C9, amended.  The asynchronous fire-and-forget mode is used by
the steady-polling power-details path and by both full-history backfill
paths; the synchronous wait-for-ack mode is used only by the
steady-polling battery path.  No completion guarantee is requested on
the backfill paths. -/
theorem claim9_amended :
    fetchLatestPowerDetailsWriteMode = WriteMode.asynchronous ∧
    fetchLatestBatteryWriteMode = WriteMode.synchronous ∧
    jsonToDbWriteMode = WriteMode.asynchronous ∧
    powerdetailHistoryWriteMode = WriteMode.asynchronous :=
  ⟨rfl, rfl, rfl, rfl⟩

theorem powerDetailLoop_step {fetch : Int → Int → Option (List MeterEntry × String)}
    {s e : Int} (h : s < e) :
    powerDetailLoop fetch s e =
      (match fetch (s + minDt) (s + maxLookbackPowerdetails) with
      | none => .error (.typeError "cannot unpack non-iterable NoneType object")
      | some (meters, unit) => do
        let pr ← normalizeMeters unit meters
        let rest ← powerDetailLoop fetch (s + maxLookbackPowerdetails) e
        .ok (pr.1 ++ rest.1, (s, s + maxLookbackPowerdetails) :: rest.2)) := by
  rw [powerDetailLoop]
  rw [dif_pos h]

theorem powerDetailLoop_windows_aux
    (pd : Int → Int → Option (List MeterEntry × String))
    (hpd : ∀ a b : Int, ∃ p, pd a b = some p ∧ (normalizeMeters p.2 p.1).isOk = true) :
    ∀ (N : Nat) (s e : Int), (e - s).toNat ≤ N →
      Except.map Prod.snd (powerDetailLoop pd s e)
        = .ok (subWindows s e maxLookbackPowerdetails) := by
  intro N
  induction N with
  | zero =>
    intro s e hN
    rw [powerDetailLoop_stop (by omega), subWindows_stop (by omega)]
    rfl
  | succ N ih =>
    intro s e hN
    by_cases hse : s < e
    · obtain ⟨p, hp, hok⟩ := hpd (s + minDt) (s + maxLookbackPowerdetails)
      obtain ⟨ms, u⟩ := p
      have hrec := ih (s + maxLookbackPowerdetails) e
        (by simp only [maxLookbackPowerdetails] at *; omega)
      cases hnm : normalizeMeters u ms with
      | error err =>
        rw [hnm] at hok
        exact Bool.noConfusion hok
      | ok pr =>
        cases hrest : powerDetailLoop pd (s + maxLookbackPowerdetails) e with
        | error err =>
          rw [hrest] at hrec
          exact Except.noConfusion hrec
        | ok rb =>
          rw [hrest] at hrec
          have hrb : rb.2 = subWindows (s + maxLookbackPowerdetails) e maxLookbackPowerdetails :=
            Except.ok.inj hrec
          have hloop : powerDetailLoop pd s e
              = .ok (pr.1 ++ rb.1, (s, s + maxLookbackPowerdetails) :: rb.2) := by
            rw [powerDetailLoop_step hse, hp]
            show (do
              let prx ← normalizeMeters u ms
              let rest ← powerDetailLoop pd (s + maxLookbackPowerdetails) e
              (.ok (prx.1 ++ rest.1, (s, s + maxLookbackPowerdetails) :: rest.2) :
                Except PyError (List Point × List (Int × Int)))) = _
            rw [hnm, hrest]
            rfl
          rw [hloop, subWindows_step (by norm_num [maxLookbackPowerdetails]) hse, ← hrb]
          rfl
    · rw [powerDetailLoop_stop hse, subWindows_stop hse]
      rfl

theorem powerDetailLoop_windows
    (pd : Int → Int → Option (List MeterEntry × String))
    (hpd : ∀ a b : Int, ∃ p, pd a b = some p ∧ (normalizeMeters p.2 p.1).isOk = true)
    (s e : Int) :
    Except.map Prod.snd (powerDetailLoop pd s e)
      = .ok (subWindows s e maxLookbackPowerdetails) :=
  powerDetailLoop_windows_aux pd hpd (e - s).toNat s e le_rfl

/-- Claim C10, counterexample.  In the power-detail loops the cursor does
not advance when a chunk's fetch fails: over the two-chunk range
`[0, 4838400)` (`4838400 = 2 · MAX_LOOKBACK_POWERDETAILS` in seconds), a
fetch that always returns no data makes the first iteration raise
`TypeError` before `from_date = end_date`, so no window list is produced
at all, while a fetch that always succeeds issues both windows — the
issued sub-windows depend on the fetch results, refuting the claim's
"advances the cursor ... even when the chunk's fetch fails" for the
cited power-detail history loop. -/
theorem claim10_counterexample :
    powerDetailLoop (fun _ _ => none) 0 4838400
      = .error (.typeError "cannot unpack non-iterable NoneType object") ∧
    Except.map Prod.snd (powerDetailLoop (fun _ _ => some ([], "W")) 0 4838400)
      = .ok [(0, 2419200), (2419200, 4838400)] := by
  have h1 : (0 : Int) < 4838400 := by norm_num
  have h2 : ((0 : Int) + maxLookbackPowerdetails) < 4838400 := by
    norm_num [maxLookbackPowerdetails]
  have h3 : ¬ ((0 : Int) + maxLookbackPowerdetails + maxLookbackPowerdetails < 4838400) := by
    norm_num [maxLookbackPowerdetails]
  constructor
  · rw [powerDetailLoop_step h1]
  · rw [powerDetailLoop_step h1, powerDetailLoop_step h2, powerDetailLoop_stop h3]
    rfl

/-- Claim C10, amended.  Every windowing loop terminates after finitely
many iterations — at most `E − S`, each advancing the cursor by the
fixed positive chunk — and within one cycle no sub-window is requested
twice (window starts strictly increase).  The battery loop advances the
cursor unconditionally, even for a chunk whose fetch returns no data, so
its issued windows are independent of the fetch results; the
power-detail loop issues the same strictly increasing window sequence
whenever every chunk's fetch succeeds and normalizes, but a failed chunk
raises and ends the cycle early instead of advancing (see the
counterexample). -/
theorem claim10_amended (s e chunk : Int) (hc : 0 < chunk)
    (f g : Int → Int → Option (List BatteryEntry))
    (pd : Int → Int → Option (List MeterEntry × String))
    (hpd : ∀ a b : Int, ∃ p, pd a b = some p ∧ (normalizeMeters p.2 p.1).isOk = true) :
    (batteryLoop f s e).2 = subWindows s e maxLookbackBattery ∧
    (batteryLoop f s e).2 = (batteryLoop g s e).2 ∧
    (subWindows s e chunk).Pairwise (fun w1 w2 => w1.1 < w2.1) ∧
    (subWindows s e chunk).Pairwise (fun w1 w2 => w1 ≠ w2) ∧
    (subWindows s e chunk).length ≤ (e - s).toNat ∧
    Except.map Prod.snd (powerDetailLoop pd s e)
      = .ok (subWindows s e maxLookbackPowerdetails) := by
  refine ⟨batteryLoop_windows f s e, ?_, subWindows_pairwise_lt hc, ?_,
    subWindows_length_le hc, ?_⟩
  · rw [batteryLoop_windows f s e, batteryLoop_windows g s e]
  · refine (subWindows_pairwise_lt hc).imp ?_
    intro a b hab hEq
    rw [hEq] at hab
    exact lt_irrefl _ hab
  · exact powerDetailLoop_windows pd hpd s e

/-- Witness for `claim10_amended` at `S = 0`, `E = 3`, `chunk = 2`, with
a failing and a succeeding battery fetch and an always-succeeding
power-detail fetch. -/
theorem claim10_amended_witness :
    (batteryLoop (fun _ _ => none) 0 3).2 = subWindows 0 3 maxLookbackBattery ∧
    (batteryLoop (fun _ _ => none) 0 3).2 = (batteryLoop (fun _ _ => some []) 0 3).2 ∧
    (subWindows 0 3 2).Pairwise (fun w1 w2 => w1.1 < w2.1) ∧
    (subWindows 0 3 2).Pairwise (fun w1 w2 => w1 ≠ w2) ∧
    (subWindows 0 3 2).length ≤ ((3 : Int) - 0).toNat ∧
    Except.map Prod.snd (powerDetailLoop (fun _ _ => some ([], "W")) 0 3)
      = .ok (subWindows 0 3 maxLookbackPowerdetails) :=
  claim10_amended 0 3 2 (by decide) (fun _ _ => none) (fun _ _ => some [])
    (fun _ _ => some ([], "W"))
    (fun a b => ⟨([], "W"), rfl, rfl⟩)
